import Mathlib

/-!
Verification of the signal-and-stake decision loop of the IQOptionTrader
program (src/main.py) against its natural-language specification.

Modelling conventions:
* Monetary amounts are exact rationals (ℚ); the stake `amount` is an
  integer (ℤ), as in the source (`start_bet` is an `int` and every stake
  increment passes through Python's `round`, which returns an `int`).
* Python's built-in `round` (round-half-to-even, "banker's rounding") is
  embedded as `python_round` below.
* The martingale depth `mm` and the cumulative win/loss counters are
  naturals; the loss-streak totals `TempLose`/`MaxLose` are rationals.
-/

/-- Python 3's built-in `round` on a rational: nearest integer, ties going
to the even integer (banker's rounding). -/
def python_round (q : ℚ) : ℤ :=
  if q - ⌊q⌋ < 1/2 then ⌊q⌋
  else if q - ⌊q⌋ > 1/2 then ⌊q⌋ + 1
  else if ⌊q⌋ % 2 = 0 then ⌊q⌋ else ⌊q⌋ + 1

/-- Trade direction (the strings "call" / "put" in the source). -/
inductive Dir where
  | call
  | put
deriving DecidableEq, Repr

/-- The mutable trading state owned by one `IQOptionTrader` instance:
`amount` (current stake), `mm` (martingale depth), `direction`,
`TempLose` (running loss-streak total), `MaxLose` (worst loss-streak
total), `gameWin` / `gameLose` (cumulative counters).  Field names follow
`IQOptionTrader.__init__`. -/
structure TraderState where
  amount : ℤ
  mm : ℕ
  direction : Dir
  TempLose : ℚ
  MaxLose : ℚ
  gameWin : ℕ
  gameLose : ℕ
deriving DecidableEq, Repr

/-- The state set up by `IQOptionTrader.__init__`: stake `start_bet`,
depth 0, direction "call", all counters and streak totals 0. -/
def initState (start_bet : ℤ) : TraderState :=
  { amount := start_bet, mm := 0, direction := Dir.call,
    TempLose := 0, MaxLose := 0, gameWin := 0, gameLose := 0 }

/-- The block of mutations performed by `_handle_order_result` on a loss
(`win < 0`) before the martingale-cap check: the stake grows by
`round(|win| + |win|*0.15)` (the rounding is applied to the increment
alone, exactly as in the source), the depth and loss counter are
incremented, the running loss-streak total accumulates `win`, and the
worst streak total is lowered when the running total goes below it. -/
def loss_update (s : TraderState) (win : ℚ) : TraderState :=
  { s with
    amount := s.amount + python_round (|win| + |win| * (15/100)),
    mm := s.mm + 1,
    gameLose := s.gameLose + 1,
    TempLose := s.TempLose + win,
    MaxLose := if s.TempLose + win < s.MaxLose then s.TempLose + win else s.MaxLose }

/-- `_handle_order_result`: on a loss apply `loss_update`, then, if the
new depth exceeds `max_martingel`, reset the stake to `start_bet` and the
depth to 0; on a win (zero included) reset the stake and depth, count the
win and clear the running loss-streak total. -/
def handle_order_result (start_bet : ℤ) (max_martingel : ℕ)
    (s : TraderState) (win : ℚ) : TraderState :=
  if win < 0 then
    let s1 := loss_update s win
    if s1.mm > max_martingel then { s1 with amount := start_bet, mm := 0 }
    else s1
  else
    { s with amount := start_bet, mm := 0, gameWin := s.gameWin + 1, TempLose := 0 }

/-- States reachable from the initial state by any sequence of order
outcomes fed to `_handle_order_result`. -/
inductive Reachable (start_bet : ℤ) (max_martingel : ℕ) : TraderState → Prop where
  | init : Reachable start_bet max_martingel (initState start_bet)
  | step (s : TraderState) (w : ℚ) :
      Reachable start_bet max_martingel s →
      Reachable start_bet max_martingel (handle_order_result start_bet max_martingel s w)

/-- Running the controller through a list of order outcomes with
`start_bet = 10` and `max_martingel = 3` (the spec's end-to-end
scenario). -/
def run_outcomes (ws : List ℚ) : TraderState :=
  ws.foldl (handle_order_result 10 3) (initState 10)

/-! ### Evaluation lemmas for `python_round` -/

lemma python_round_eval (q : ℚ) (f : ℤ) (hf : ⌊q⌋ = f) :
    python_round q =
      if q - f < 1/2 then f
      else if q - f > 1/2 then f + 1
      else if f % 2 = 0 then f else f + 1 := by
  simp only [python_round, hf]

lemma python_round_23_2 : python_round (23/2) = 12 := by
  rw [python_round_eval (23/2) 11 (by norm_num [Int.floor_eq_iff])]
  norm_num

lemma python_round_529_40 : python_round (529/40) = 13 := by
  rw [python_round_eval (529/40) 13 (by norm_num [Int.floor_eq_iff])]
  norm_num

lemma python_round_12167_800 : python_round (12167/800) = 15 := by
  rw [python_round_eval (12167/800) 15 (by norm_num [Int.floor_eq_iff])]
  norm_num

lemma python_round_23_200 : python_round (23/200) = 0 := by
  rw [python_round_eval (23/200) 0 (by norm_num [Int.floor_eq_iff])]
  norm_num

lemma python_round_65_2 : python_round (65/2) = 32 := by
  rw [python_round_eval (65/2) 32 (by norm_num [Int.floor_eq_iff])]
  norm_num

lemma python_round_nonneg {q : ℚ} (hq : 0 ≤ q) : 0 ≤ python_round q := by
  have hf : (0 : ℤ) ≤ ⌊q⌋ := Int.le_floor.mpr (by exact_mod_cast hq)
  unfold python_round
  split_ifs <;> omega

/-! ### Branch lemmas for `_handle_order_result` -/

/-- On a loss whose incremented depth stays within the cap, the transition
is exactly `loss_update`. -/
lemma handle_loss_nocap (start_bet : ℤ) (max_m : ℕ) (s : TraderState) (w : ℚ)
    (hw : w < 0) (hcap : s.mm + 1 ≤ max_m) :
    handle_order_result start_bet max_m s w = loss_update s w := by
  simp only [handle_order_result, if_pos hw]
  have hc : ¬ (loss_update s w).mm > max_m := by
    simp only [loss_update]
    omega
  simp only [if_neg hc]

/-- On a loss whose incremented depth exceeds the cap, the transition is
`loss_update` followed by the stake/depth reset. -/
lemma handle_loss_cap (start_bet : ℤ) (max_m : ℕ) (s : TraderState) (w : ℚ)
    (hw : w < 0) (hcap : max_m < s.mm + 1) :
    handle_order_result start_bet max_m s w
      = { loss_update s w with amount := start_bet, mm := 0 } := by
  simp only [handle_order_result, if_pos hw]
  have hc : (loss_update s w).mm > max_m := by
    simp only [loss_update]
    omega
  simp only [if_pos hc]

/-- On a win (non-negative outcome), the transition is the unconditional
baseline reset with `gameWin` incremented. -/
lemma handle_win (start_bet : ℤ) (max_m : ℕ) (s : TraderState) (w : ℚ)
    (hw : 0 ≤ w) :
    handle_order_result start_bet max_m s w
      = { s with amount := start_bet, mm := 0,
                 gameWin := s.gameWin + 1, TempLose := 0 } := by
  unfold handle_order_result
  rw [if_neg (not_lt.mpr hw)]

/-- Invariant of reachable controller states: the stake never goes below
`start_bet`, and at depth 0 it is exactly `start_bet`. -/
lemma reachable_stake_inv (start_bet : ℤ) (max_m : ℕ) (s : TraderState)
    (h : Reachable start_bet max_m s) :
    start_bet ≤ s.amount ∧ (s.mm = 0 → s.amount = start_bet) := by
  induction h with
  | init => exact ⟨le_refl _, fun _ => rfl⟩
  | step s w _ ih =>
    by_cases hw : w < 0
    · by_cases hc : max_m < s.mm + 1
      · rw [handle_loss_cap start_bet max_m s w hw hc]
        exact ⟨le_refl _, fun _ => rfl⟩
      · rw [handle_loss_nocap start_bet max_m s w hw (by omega)]
        have h0 : 0 ≤ python_round (|w| + |w| * (15/100)) :=
          python_round_nonneg (by positivity)
        have h1 := ih.1
        constructor
        · show start_bet ≤ s.amount + python_round (|w| + |w| * (15/100))
          omega
        · intro hmm
          exact absurd (show s.mm + 1 = 0 from hmm) (by omega)
    · rw [handle_win start_bet max_m s w (not_lt.mp hw)]
      exact ⟨le_refl _, fun _ => rfl⟩

/-! ### Step-by-step evaluation of the spec's end-to-end scenario
(start stake 10, cap 3, consecutive losses −10, −11.5, −13.225, then a
fourth loss). -/

lemma scenario_step1 :
    handle_order_result 10 3 (initState 10) (-10)
      = { amount := 22, mm := 1, direction := Dir.call, TempLose := -10,
          MaxLose := -10, gameWin := 0, gameLose := 1 } := by
  rw [handle_loss_nocap 10 3 (initState 10) (-10) (by norm_num) (by decide)]
  have ha : |(-10 : ℚ)| + |(-10 : ℚ)| * (15/100) = 23/2 := by
    rw [abs_of_neg (show (-10 : ℚ) < 0 by norm_num)]
    norm_num
  simp only [loss_update, initState, ha, python_round_23_2]
  norm_num

lemma scenario_step2 :
    handle_order_result 10 3
      { amount := 22, mm := 1, direction := Dir.call, TempLose := -10,
        MaxLose := -10, gameWin := 0, gameLose := 1 } (-23/2)
      = { amount := 35, mm := 2, direction := Dir.call, TempLose := -43/2,
          MaxLose := -43/2, gameWin := 0, gameLose := 2 } := by
  rw [handle_loss_nocap _ _ _ _ (by norm_num) (by decide)]
  have ha : |(-23/2 : ℚ)| + |(-23/2 : ℚ)| * (15/100) = 529/40 := by
    rw [abs_of_neg (show (-23/2 : ℚ) < 0 by norm_num)]
    norm_num
  simp only [loss_update, ha, python_round_529_40]
  norm_num

lemma scenario_step3 :
    handle_order_result 10 3
      { amount := 35, mm := 2, direction := Dir.call, TempLose := -43/2,
        MaxLose := -43/2, gameWin := 0, gameLose := 2 } (-529/40)
      = { amount := 50, mm := 3, direction := Dir.call, TempLose := -1389/40,
          MaxLose := -1389/40, gameWin := 0, gameLose := 3 } := by
  rw [handle_loss_nocap _ _ _ _ (by norm_num) (by decide)]
  have ha : |(-529/40 : ℚ)| + |(-529/40 : ℚ)| * (15/100) = 12167/800 := by
    rw [abs_of_neg (show (-529/40 : ℚ) < 0 by norm_num)]
    norm_num
  simp only [loss_update, ha, python_round_12167_800]
  norm_num

lemma scenario_step4 :
    handle_order_result 10 3
      { amount := 50, mm := 3, direction := Dir.call, TempLose := -1389/40,
        MaxLose := -1389/40, gameWin := 0, gameLose := 3 } (-50)
      = { amount := 10, mm := 0, direction := Dir.call, TempLose := -3389/40,
          MaxLose := -3389/40, gameWin := 0, gameLose := 4 } := by
  rw [handle_loss_cap _ _ _ _ (by norm_num) (by decide)]
  simp only [loss_update]
  norm_num

/-! ### Claim C1 -/

/-- C1 (amended): on a loss (profit/loss `w < 0`) whose incremented depth
does not exceed the cap, `_handle_order_result` adds
`round(|w| + 0.15·|w|)` to the stake (the increment alone is rounded,
with Python's banker's rounding), increments `mm` and `gameLose` by 1,
and adds `w` to `TempLose`. -/
theorem c1_loss_transition (start_bet : ℤ) (max_m : ℕ) (s : TraderState) (w : ℚ)
    (hw : w < 0) (hcap : s.mm + 1 ≤ max_m) :
    (handle_order_result start_bet max_m s w).amount
        = s.amount + python_round (|w| + |w| * (15/100)) ∧
    (handle_order_result start_bet max_m s w).mm = s.mm + 1 ∧
    (handle_order_result start_bet max_m s w).gameLose = s.gameLose + 1 ∧
    (handle_order_result start_bet max_m s w).TempLose = s.TempLose + w := by
  rw [handle_loss_nocap start_bet max_m s w hw hcap]
  exact ⟨rfl, rfl, rfl, rfl⟩

/-- C1 witness: concrete loss −10 from the initial state with start stake
10 and cap 3. -/
theorem c1_witness :
    ((-10 : ℚ) < 0) ∧ ((initState 10).mm + 1 ≤ 3) ∧
    ((handle_order_result 10 3 (initState 10) (-10)).amount
        = (initState 10).amount + python_round (|(-10 : ℚ)| + |(-10 : ℚ)| * (15/100)) ∧
     (handle_order_result 10 3 (initState 10) (-10)).mm = (initState 10).mm + 1 ∧
     (handle_order_result 10 3 (initState 10) (-10)).gameLose = (initState 10).gameLose + 1 ∧
     (handle_order_result 10 3 (initState 10) (-10)).TempLose = (initState 10).TempLose + (-10)) :=
  ⟨by norm_num, by decide,
   c1_loss_transition 10 3 (initState 10) (-10) (by norm_num) (by decide)⟩

/-- C1 counterexample: from the state with stake 21 and depth 0 (cap 3,
start stake 10), the loss −10 drives the stake to
`21 + round(11.5) = 33`, while the claim's formula
`round(stake + |loss| + 0.15·|loss|) = round(32.5)` evaluates to 32 under
Python's banker's rounding: the two disagree at exact .5 ties. -/
theorem c1_cex :
    (handle_order_result 10 3
        { amount := 21, mm := 0, direction := Dir.call, TempLose := 0,
          MaxLose := 0, gameWin := 0, gameLose := 0 } (-10)).amount = 33 ∧
    python_round ((21 : ℚ) + |(-10 : ℚ)| + |(-10 : ℚ)| * (15/100)) = 32 ∧
    (33 : ℤ) ≠ 32 := by
  have habs : |(-10 : ℚ)| = 10 := by
    rw [abs_of_neg (show (-10 : ℚ) < 0 by norm_num)]
    norm_num
  refine ⟨?_, ?_, by decide⟩
  · rw [handle_loss_nocap _ _ _ _ (by norm_num) (by decide)]
    have ha : |(-10 : ℚ)| + |(-10 : ℚ)| * (15/100) = 23/2 := by
      rw [habs]
      norm_num
    simp only [loss_update, ha, python_round_23_2]
    norm_num
  · have ha : (21 : ℚ) + |(-10 : ℚ)| + |(-10 : ℚ)| * (15/100) = 65/2 := by
      rw [habs]
      norm_num
    rw [ha, python_round_65_2]

/-! ### Claim C2 -/

/-- C2: when a loss pushes the depth above `max_martingel`, the loss
update is still applied in the same transition (the result is exactly
`loss_update` followed by the stake/depth reset), the final stake is
`start_bet`, the final depth 0, and `TempLose` is NOT reset: it still
accumulates the loss. -/
theorem c2_cap_transition (start_bet : ℤ) (max_m : ℕ) (s : TraderState) (w : ℚ)
    (hw : w < 0) (hcap : max_m < s.mm + 1) :
    handle_order_result start_bet max_m s w
        = { loss_update s w with amount := start_bet, mm := 0 } ∧
    (handle_order_result start_bet max_m s w).amount = start_bet ∧
    (handle_order_result start_bet max_m s w).mm = 0 ∧
    (handle_order_result start_bet max_m s w).TempLose = s.TempLose + w ∧
    (handle_order_result start_bet max_m s w).gameLose = s.gameLose + 1 := by
  rw [handle_loss_cap start_bet max_m s w hw hcap]
  exact ⟨rfl, rfl, rfl, rfl, rfl⟩

/-- C2 witness: a loss of −12 at depth 3 with cap 3. -/
theorem c2_witness :
    ((-12 : ℚ) < 0) ∧ (3 < 3 + 1) ∧
    ((handle_order_result 10 3
        { amount := 22, mm := 3, direction := Dir.put, TempLose := -12,
          MaxLose := -12, gameWin := 0, gameLose := 3 } (-12)).amount = 10 ∧
     (handle_order_result 10 3
        { amount := 22, mm := 3, direction := Dir.put, TempLose := -12,
          MaxLose := -12, gameWin := 0, gameLose := 3 } (-12)).mm = 0 ∧
     (handle_order_result 10 3
        { amount := 22, mm := 3, direction := Dir.put, TempLose := -12,
          MaxLose := -12, gameWin := 0, gameLose := 3 } (-12)).TempLose = -12 + -12 ∧
     (handle_order_result 10 3
        { amount := 22, mm := 3, direction := Dir.put, TempLose := -12,
          MaxLose := -12, gameWin := 0, gameLose := 3 } (-12)).gameLose = 3 + 1) :=
  ⟨by norm_num, by decide,
   (c2_cap_transition 10 3 _ (-12) (by norm_num) (by decide)).2⟩

/-! ### Claim C3 -/

/-- C3: on any non-negative outcome (zero counts as a win), from any
prior state, the controller resets to baseline: stake `start_bet`, depth
0, running streak total 0, `gameWin` incremented; `MaxLose` and
`gameLose` are left unchanged. -/
theorem c3_win_reset (start_bet : ℤ) (max_m : ℕ) (s : TraderState) (w : ℚ)
    (hw : 0 ≤ w) :
    (handle_order_result start_bet max_m s w).amount = start_bet ∧
    (handle_order_result start_bet max_m s w).mm = 0 ∧
    (handle_order_result start_bet max_m s w).TempLose = 0 ∧
    (handle_order_result start_bet max_m s w).gameWin = s.gameWin + 1 ∧
    (handle_order_result start_bet max_m s w).MaxLose = s.MaxLose ∧
    (handle_order_result start_bet max_m s w).gameLose = s.gameLose := by
  rw [handle_win start_bet max_m s w hw]
  exact ⟨rfl, rfl, rfl, rfl, rfl, rfl⟩

/-- C3 witness: outcome 0 (a win by convention) from a mid-recovery
state. -/
theorem c3_witness :
    ((0 : ℚ) ≤ 0) ∧
    ((handle_order_result 10 3
        { amount := 35, mm := 2, direction := Dir.put, TempLose := -43/2,
          MaxLose := -30, gameWin := 1, gameLose := 2 } 0).amount = 10 ∧
     (handle_order_result 10 3
        { amount := 35, mm := 2, direction := Dir.put, TempLose := -43/2,
          MaxLose := -30, gameWin := 1, gameLose := 2 } 0).mm = 0 ∧
     (handle_order_result 10 3
        { amount := 35, mm := 2, direction := Dir.put, TempLose := -43/2,
          MaxLose := -30, gameWin := 1, gameLose := 2 } 0).TempLose = 0 ∧
     (handle_order_result 10 3
        { amount := 35, mm := 2, direction := Dir.put, TempLose := -43/2,
          MaxLose := -30, gameWin := 1, gameLose := 2 } 0).gameWin = 1 + 1 ∧
     (handle_order_result 10 3
        { amount := 35, mm := 2, direction := Dir.put, TempLose := -43/2,
          MaxLose := -30, gameWin := 1, gameLose := 2 } 0).MaxLose = -30 ∧
     (handle_order_result 10 3
        { amount := 35, mm := 2, direction := Dir.put, TempLose := -43/2,
          MaxLose := -30, gameWin := 1, gameLose := 2 } 0).gameLose = 2) :=
  ⟨le_refl 0, c3_win_reset 10 3 _ 0 (le_refl 0)⟩

/-! ### Claim C5 -/

/-- C5 (amended): with start stake 10 and cap 3, consecutive losses
−10, −11.5, −13.225 give observed stakes before each order of
10, 22, 35 (not 10, 21, 37); after the 3rd consecutive loss the stake is
50 at depth 3 (within the cap, so no reset), and a 4th consecutive loss
pushes the depth to 4 > 3, resetting the stake to 10 and the depth
to 0. -/
theorem c5_scenario :
    (run_outcomes []).amount = 10 ∧
    (run_outcomes [-10]).amount = 22 ∧
    (run_outcomes [-10, -23/2]).amount = 35 ∧
    (run_outcomes [-10, -23/2, -529/40]).amount = 50 ∧
    (run_outcomes [-10, -23/2, -529/40]).mm = 3 ∧
    (run_outcomes [-10, -23/2, -529/40, -50]).amount = 10 ∧
    (run_outcomes [-10, -23/2, -529/40, -50]).mm = 0 := by
  simp only [run_outcomes, List.foldl, scenario_step1, scenario_step2,
    scenario_step3, scenario_step4]
  refine ⟨?_, ?_, ?_, ?_, ?_, ?_, ?_⟩ <;> trivial

/-- C5 counterexample: the observed stake before the second order is 22,
not 21 as the claim states. -/
theorem c5_cex :
    (run_outcomes [-10]).amount = 22 ∧ (run_outcomes [-10]).amount ≠ 21 := by
  have h : run_outcomes [-10]
      = { amount := 22, mm := 1, direction := Dir.call, TempLose := -10,
          MaxLose := -10, gameWin := 0, gameLose := 1 } := by
    simp only [run_outcomes, List.foldl, scenario_step1]
  rw [h]
  exact ⟨rfl, by decide⟩

/-! ### Claim C7 -/

/-- C7 (amended): in every reachable controller state, depth 0 implies
the stake equals `start_bet`, and positive depth implies the stake is at
least `start_bet` (not strictly greater: a small loss can round the
increment to 0). -/
theorem c7_state_classes (start_bet : ℤ) (max_m : ℕ) (s : TraderState)
    (h : Reachable start_bet max_m s) :
    (s.mm = 0 → s.amount = start_bet) ∧ (0 < s.mm → start_bet ≤ s.amount) := by
  have hinv := reachable_stake_inv start_bet max_m s h
  exact ⟨hinv.2, fun _ => hinv.1⟩

/-- C7 witness: the invariant instantiated at the initial state with
start stake 10 and cap 3. -/
theorem c7_witness :
    ((initState 10).mm = 0 → (initState 10).amount = 10) ∧
    (0 < (initState 10).mm → 10 ≤ (initState 10).amount) :=
  c7_state_classes 10 3 (initState 10) Reachable.init

/-- C7 counterexample: the loss −0.1 from the initial state (start stake
10, cap 3) is reachable and leaves the stake at exactly 10 while the
depth is 1, refuting `martingaleDepth > 0 → stake > startStake`. -/
theorem c7_cex :
    Reachable 10 3 (handle_order_result 10 3 (initState 10) (-1/10)) ∧
    0 < (handle_order_result 10 3 (initState 10) (-1/10)).mm ∧
    ¬ (10 < (handle_order_result 10 3 (initState 10) (-1/10)).amount) := by
  have h : handle_order_result 10 3 (initState 10) (-1/10)
      = loss_update (initState 10) (-1/10) :=
    handle_loss_nocap 10 3 (initState 10) (-1/10) (by norm_num) (by decide)
  have ha : |(-1/10 : ℚ)| + |(-1/10 : ℚ)| * (15/100) = 23/200 := by
    rw [abs_of_neg (show (-1/10 : ℚ) < 0 by norm_num)]
    norm_num
  refine ⟨Reachable.step (initState 10) (-1/10) Reachable.init, ?_, ?_⟩
  · rw [h]
    simp only [loss_update, initState]
    omega
  · rw [h]
    simp only [loss_update, initState, ha, python_round_23_200]
    omega

/-! ### Claim C10 -/

/-- C10: in every reachable controller state the stake is at least
`start_bet`: the initial stake is `start_bet`, loss transitions add a
non-negative rounded increment, and every win or cap reset sets the
stake exactly to `start_bet`. -/
theorem c10_stake_lower_bound (start_bet : ℤ) (max_m : ℕ) (s : TraderState)
    (h : Reachable start_bet max_m s) : start_bet ≤ s.amount :=
  (reachable_stake_inv start_bet max_m s h).1

/-- C10 witness: the bound instantiated at the state reached by one loss
of −10 from the initial state (start stake 10, cap 3). -/
theorem c10_witness : 10 ≤ (handle_order_result 10 3 (initState 10) (-10)).amount :=
  c10_stake_lower_bound 10 3 _ (Reachable.step (initState 10) (-10) Reachable.init)

/-!
### Market analysis pipeline

`_get_price_data` and `_analyze_market` (src/main.py lines 124–215).
pandas specifics embedded:
* `rolling(window=20).mean()/.std()` are undefined (NaN) for the first
  19 rows, so those fields are `Option ℚ`; `std` uses the sample
  standard deviation (ddof = 1), whose square root does not exist inside
  ℚ, so the pipeline is parameterized by the square-root function
  `sq : ℚ → ℚ`; no claim below depends on its values.
* `ewm(span=s, adjust=False).mean()` is the recursion
  `e0 = c0, e[t] = e[t-1] + α (c[t] − e[t-1])` with `α = 2/(s+1)` and is
  defined from the first row on.
* `dropna()` keeps exactly the rows where every column is defined.
-/

/-- A raw candle as returned by the brokerage API: any of the four price
fields may be absent (accessing an absent key raises inside
`_get_price_data`). -/
structure RawCandle where
  open_ : Option ℚ
  close : Option ℚ
  min : Option ℚ
  max : Option ℚ
deriving DecidableEq, Repr

/-- One row of the price DataFrame built by `_get_price_data`
(`low` is the candle's `min`, `high` its `max`). -/
structure Candle where
  open_ : ℚ
  close : ℚ
  low : ℚ
  high : ℚ
deriving DecidableEq, Repr

/-- `_get_price_data`: builds the price rows from the candles.  A candle
missing any price field raises a KeyError during the comprehension; the
surrounding try/except catches it and returns an empty DataFrame, which
is modelled as the empty list. -/
def get_price_data (raw : List RawCandle) : List Candle :=
  if raw.all (fun c => c.open_.isSome && c.close.isSome && c.min.isSome && c.max.isSome) then
    raw.map (fun c =>
      { open_ := c.open_.getD 0, close := c.close.getD 0,
        low := c.min.getD 0, high := c.max.getD 0 })
  else []

/-- A DataFrame row after the indicator columns are added; the rolling
columns are `Option` (NaN for the first 19 rows). -/
structure RowOpt where
  open_ : ℚ
  close : ℚ
  low : ℚ
  high : ℚ
  SMA : Option ℚ
  STD : Option ℚ
  Upper_BB : Option ℚ
  Lower_BB : Option ℚ
  ema_cross : ℚ
  ema_trend : ℚ
  ema_base : ℚ

/-- A row surviving `dropna()`: every indicator column defined. -/
structure Row where
  open_ : ℚ
  close : ℚ
  low : ℚ
  high : ℚ
  SMA : ℚ
  STD : ℚ
  Upper_BB : ℚ
  Lower_BB : ℚ
  ema_cross : ℚ
  ema_trend : ℚ
  ema_base : ℚ

/-- The all-zero row, used as the (never reached) out-of-bounds default
for `iloc`-style indexing. -/
def drow : Row :=
  { open_ := 0, close := 0, low := 0, high := 0, SMA := 0, STD := 0,
    Upper_BB := 0, Lower_BB := 0, ema_cross := 0, ema_trend := 0, ema_base := 0 }

/-- Arithmetic mean of a list of rationals. -/
def mean (l : List ℚ) : ℚ := l.sum / l.length

/-- Sample variance (pandas' default ddof = 1). -/
def svar (l : List ℚ) : ℚ :=
  ((l.map (fun x => (x - mean l) ^ 2)).sum) / ((l.length : ℚ) - 1)

/-- Tail of the exponential moving average recursion
`e = prev + α (c − prev)`. -/
def ema_from (a prev : ℚ) : List ℚ → List ℚ
  | [] => []
  | c :: cs =>
    let e := prev + a * (c - prev)
    e :: ema_from a e cs

/-- `ewm(span, adjust=False).mean()`: seed with the first value, then the
standard recursion. -/
def ewm_mean (a : ℚ) : List ℚ → List ℚ
  | [] => []
  | c :: cs => c :: ema_from a c cs

/-- The 20-element rolling window ending at index `i` (defined for
`19 ≤ i`). -/
def window20 (closes : List ℚ) (i : ℕ) : List ℚ :=
  (closes.drop (i - 19)).take 20

/-- The indicator columns of `_analyze_market` (lines 169–178): Bollinger
bands from the 20-row rolling mean/std, and the three EMAs with spans
12, 50, 200 (α = 2/13, 2/51, 2/201). -/
def indicator_rows (sq : ℚ → ℚ) (pd : List Candle) : List RowOpt :=
  let closes := pd.map (fun c => c.close)
  let e12 := ewm_mean (2/13) closes
  let e50 := ewm_mean (2/51) closes
  let e200 := ewm_mean (2/201) closes
  (List.range pd.length).map (fun i =>
    let c := pd.getD i { open_ := 0, close := 0, low := 0, high := 0 }
    let sma : Option ℚ := if 19 ≤ i then some (mean (window20 closes i)) else none
    let std : Option ℚ := if 19 ≤ i then some (sq (svar (window20 closes i))) else none
    { open_ := c.open_, close := c.close, low := c.low, high := c.high,
      SMA := sma, STD := std,
      Upper_BB :=
        match sma, std with
        | some m, some d => some (m + 2 * d)
        | _, _ => none,
      Lower_BB :=
        match sma, std with
        | some m, some d => some (m - 2 * d)
        | _, _ => none,
      ema_cross := e12.getD i 0, ema_trend := e50.getD i 0, ema_base := e200.getD i 0 })

/-- `dropna()`: keep exactly the rows with every column defined. -/
def dropna (rows : List RowOpt) : List Row :=
  rows.filterMap (fun r =>
    match r.SMA, r.STD, r.Upper_BB, r.Lower_BB with
    | some m, some d, some u, some l =>
        some { open_ := r.open_, close := r.close, low := r.low, high := r.high,
               SMA := m, STD := d, Upper_BB := u, Lower_BB := l,
               ema_cross := r.ema_cross, ema_trend := r.ema_trend,
               ema_base := r.ema_base }
    | _, _, _, _ => none)

/-- The indicator rows surviving trimming, for a given raw candle
series. -/
def trimmed_rows (sq : ℚ → ℚ) (raw : List RawCandle) : List Row :=
  dropna (indicator_rows sq (get_price_data raw))

/-- The decision block of `_analyze_market` (lines 185–211).  Note
`third_last_row` is `iloc[-2]`, exactly as in the source — the same row
as `second_last_row`.  The setup booleans are computed but the returned
value depends only on the latest row's close vs. open. -/
def decide_signal (rows : List Row) : Option Dir :=
  let latest_row := rows.getD (rows.length - 1) drow
  let second_last_row := rows.getD (rows.length - 2) drow
  let third_last_row := rows.getD (rows.length - 2) drow
  let trendUp := second_last_row.ema_base < second_last_row.ema_trend ∧
    second_last_row.ema_trend < second_last_row.ema_cross
  let trendDn := second_last_row.ema_base > second_last_row.ema_trend ∧
    second_last_row.ema_trend > second_last_row.ema_cross
  let priceIn := second_last_row.low > second_last_row.Lower_BB ∧
    second_last_row.high < second_last_row.Upper_BB
  let crossOver := third_last_row.ema_cross < third_last_row.ema_trend ∧
    second_last_row.ema_cross > second_last_row.ema_trend
  let crossUnder := third_last_row.ema_cross > third_last_row.ema_trend ∧
    second_last_row.ema_cross < second_last_row.ema_trend
  let Signal_buy := trendUp ∧ priceIn ∧ crossOver
  let Signal_sell := trendDn ∧ priceIn ∧ crossUnder
  if latest_row.close > latest_row.open_ then some Dir.call
  else if latest_row.close < latest_row.open_ then some Dir.put
  else none

/-- The `crossOver` boolean of `_analyze_market` (line 193), with the
source's indexing: `third_last_row = iloc[-2]`. -/
def crossOver_of (rows : List Row) : Bool :=
  let second_last_row := rows.getD (rows.length - 2) drow
  let third_last_row := rows.getD (rows.length - 2) drow
  decide (third_last_row.ema_cross < third_last_row.ema_trend) &&
    decide (second_last_row.ema_cross > second_last_row.ema_trend)

/-- The `crossUnder` boolean of `_analyze_market` (line 194), with the
source's indexing. -/
def crossUnder_of (rows : List Row) : Bool :=
  let second_last_row := rows.getD (rows.length - 2) drow
  let third_last_row := rows.getD (rows.length - 2) drow
  decide (third_last_row.ema_cross > third_last_row.ema_trend) &&
    decide (second_last_row.ema_cross < second_last_row.ema_trend)

/-- Modelled from the spec's words for claim C6 only: the third-last
reference row taken as the true third-from-last row whenever at least 3
rows remain, coinciding with the second-last row only when fewer than 3
rows are available. -/
def spec_third_last (rows : List Row) : Row :=
  if 3 ≤ rows.length then rows.getD (rows.length - 3) drow
  else rows.getD (rows.length - 2) drow

/-- Modelled from the spec's words for claim C6 only: `crossOver` with
the claimed third-last indexing. -/
def spec_crossOver (rows : List Row) : Bool :=
  decide ((spec_third_last rows).ema_cross < (spec_third_last rows).ema_trend) &&
    decide ((rows.getD (rows.length - 2) drow).ema_cross
      > (rows.getD (rows.length - 2) drow).ema_trend)

/-- The branch taken by one analysis cycle, named after the source's
distinct log messages/return points in `_analyze_market`. -/
inductive MarketOutcome where
  | priceDataEmptyOrShort
  | missingRequiredColumns
  | notEnoughValidData
  | signal (d : Option Dir)
deriving DecidableEq, Repr

/-- The `'low','high' in price_data.columns` check of line 165: the
DataFrame built by `_get_price_data` always has these columns (when
non-empty it was built by the comprehension naming them), so the check
holds for every series that passes the length guard. -/
def has_low_high_columns (_pd : List Candle) : Bool := true

/-- `_analyze_market` as a whole: length guard, column check, indicator
computation with trimming, second length guard, then the decision. -/
def analyze_outcome (sq : ℚ → ℚ) (raw : List RawCandle) : MarketOutcome :=
  if (get_price_data raw).length < 2 then MarketOutcome.priceDataEmptyOrShort
  else if has_low_high_columns (get_price_data raw) = false then
    MarketOutcome.missingRequiredColumns
  else if (trimmed_rows sq raw).length < 2 then MarketOutcome.notEnoughValidData
  else MarketOutcome.signal (decide_signal (trimmed_rows sq raw))

/-- `_analyze_market`'s return value (`Optional[str]`): every non-signal
branch returns `None`. -/
def analyze_market (sq : ℚ → ℚ) (raw : List RawCandle) : Option Dir :=
  match analyze_outcome sq raw with
  | MarketOutcome.signal d => d
  | _ => none

/-- `create_order`: if the analysis yields no direction, return at once
(no order, no state change); otherwise store the direction, place the
order (`buy_status` is the broker's accept flag), and on acceptance feed
the realized outcome to `_handle_order_result`.  The boolean result
records whether an order was attempted. -/
def create_order (start_bet : ℤ) (max_m : ℕ) (s : TraderState)
    (dir : Option Dir) (buy_status : Bool) (win : ℚ) : TraderState × Bool :=
  match dir with
  | none => (s, false)
  | some d =>
    let s1 := { s with direction := d }
    if buy_status then (handle_order_result start_bet max_m s1 win, true)
    else (s1, true)

/-! ### Helper lemmas for the pipeline -/

lemma indicator_rows_length (sq : ℚ → ℚ) (pd : List Candle) :
    (indicator_rows sq pd).length = pd.length := by
  simp [indicator_rows]

lemma dropna_length_le (rows : List RowOpt) :
    (dropna rows).length ≤ rows.length :=
  List.length_filterMap_le _ _

lemma trimmed_rows_length_le (sq : ℚ → ℚ) (raw : List RawCandle) :
    (trimmed_rows sq raw).length ≤ (get_price_data raw).length := by
  have h := dropna_length_le (indicator_rows sq (get_price_data raw))
  rw [indicator_rows_length] at h
  exact h

/-- `decide_signal` on a two-row list, reduced to the close-vs-open rule
on the second row. -/
lemma decide_signal_pair (a b : Row) :
    decide_signal [a, b] =
      if b.close > b.open_ then some Dir.call
      else if b.close < b.open_ then some Dir.put
      else none := rfl

lemma and_decide_lt_gt_false {a b : ℚ} :
    (decide (a < b) && decide (a > b)) = false := by
  by_cases h : a < b
  · have h2 : ¬ a > b := lt_asymm h
    simp [h, h2]
  · simp [h]

lemma and_decide_gt_lt_false {a b : ℚ} :
    (decide (a > b) && decide (a < b)) = false := by
  by_cases h : a > b
  · have h2 : ¬ a < b := lt_asymm h
    simp [h, h2]
  · simp [h]

/-! ### Claim C4 -/

/-- Concrete latest rows for the spec's decision-policy scenario. -/
def row_call : Row := { drow with open_ := 6/5, close := 241/200 }

/-- Latest row for the "put" scenario. -/
def row_put : Row := { drow with open_ := 6/5, close := 1199/1000 }

/-- Latest row for the "no signal" scenario. -/
def row_flat : Row := { drow with open_ := 6/5, close := 6/5 }

/-- C4: whenever at least 2 indicator rows survive trimming, the decision
returned by `_analyze_market` is determined solely by the latest row's
close vs. open (the setup booleans are computed but never alter it); in
particular close 1.2050 / open 1.2000 gives "call", close 1.1990 / open
1.2000 gives "put", and close = open = 1.2000 gives no signal. -/
theorem c4_decision :
    (∀ (sq : ℚ → ℚ) (raw : List RawCandle),
      2 ≤ (trimmed_rows sq raw).length →
      analyze_outcome sq raw = MarketOutcome.signal
        (if ((trimmed_rows sq raw).getD ((trimmed_rows sq raw).length - 1) drow).close
              > ((trimmed_rows sq raw).getD ((trimmed_rows sq raw).length - 1) drow).open_
         then some Dir.call
         else if ((trimmed_rows sq raw).getD ((trimmed_rows sq raw).length - 1) drow).close
              < ((trimmed_rows sq raw).getD ((trimmed_rows sq raw).length - 1) drow).open_
         then some Dir.put
         else none)) ∧
    decide_signal [drow, row_call] = some Dir.call ∧
    decide_signal [drow, row_put] = some Dir.put ∧
    decide_signal [drow, row_flat] = none := by
  refine ⟨?_, ?_, ?_, ?_⟩
  · intro sq raw h
    have hle := trimmed_rows_length_le sq raw
    have hpd : ¬ ((get_price_data raw).length < 2) := by omega
    have htr : ¬ ((trimmed_rows sq raw).length < 2) := by omega
    unfold analyze_outcome
    rw [if_neg hpd]
    rw [if_neg (by simp [has_low_high_columns])]
    rw [if_neg htr]
    rfl
  · rw [decide_signal_pair]
    rw [if_pos (show row_call.close > row_call.open_ by
      simp only [row_call]
      norm_num)]
  · rw [decide_signal_pair]
    rw [if_neg (show ¬ row_put.close > row_put.open_ by
      simp only [row_put]
      norm_num)]
    rw [if_pos (show row_put.close < row_put.open_ by
      simp only [row_put]
      norm_num)]
  · rw [decide_signal_pair]
    rw [if_neg (show ¬ row_flat.close > row_flat.open_ by
      simp only [row_flat]
      norm_num)]
    rw [if_neg (show ¬ row_flat.close < row_flat.open_ by
      simp only [row_flat]
      norm_num)]

/-- A 21-candle series (open 1, close 2) that leaves exactly 2 indicator
rows after trimming. -/
def raw21 : List RawCandle :=
  List.replicate 21 { open_ := some 1, close := some 2, min := some 1, max := some 2 }

/-- C4 witness: on the concrete 21-candle series, 2 rows survive trimming
and the analysis returns "call" (close 2 > open 1 on the latest row). -/
theorem c4_witness :
    2 ≤ (trimmed_rows (fun q => q) raw21).length ∧
    analyze_outcome (fun q => q) raw21 = MarketOutcome.signal (some Dir.call) := by
  constructor
  · decide
  · have h := c4_decision.1 (fun q => q) raw21 (by decide)
    rw [h]
    decide

/-! ### Claim C6 -/

/-- Third-from-last reference row of the C6 counterexample: its fast EMA
is below its mid EMA. -/
def c6_row1 : Row := { drow with ema_cross := 1, ema_trend := 2 }

/-- Second-last row of the C6 counterexample: its fast EMA is above its
mid EMA. -/
def c6_row2 : Row := { drow with ema_cross := 3, ema_trend := 2 }

/-- C6 (amended): the source's "third-last" row is `iloc[-2]`, the same
row as the second-last one, for every length — so `crossOver` demands
`emaFast < emaMid` and `emaFast > emaMid` of one and the same row and is
always false, and symmetrically `crossUnder` is always false. -/
theorem c6_cross_always_false (rows : List Row) :
    (crossOver_of rows = true ↔
      ((rows.getD (rows.length - 2) drow).ema_cross
          < (rows.getD (rows.length - 2) drow).ema_trend ∧
       (rows.getD (rows.length - 2) drow).ema_cross
          > (rows.getD (rows.length - 2) drow).ema_trend)) ∧
    crossOver_of rows = false ∧ crossUnder_of rows = false := by
  refine ⟨?_, ?_, ?_⟩
  · simp only [crossOver_of, Bool.and_eq_true, decide_eq_true_eq]
  · simp only [crossOver_of]
    exact and_decide_lt_gt_false
  · simp only [crossUnder_of]
    exact and_decide_gt_lt_false

/-- C6 counterexample: a 3-row series whose true third-from-last row has
`emaFast < emaMid` and whose second-last row has `emaFast > emaMid`.  The
claimed formula (with the true third-last row) is satisfied, yet the
code's `crossOver` is false. -/
theorem c6_cex :
    crossOver_of [c6_row1, c6_row2, drow] = false ∧
    spec_crossOver [c6_row1, c6_row2, drow] = true := by
  constructor
  · simp only [crossOver_of]
    exact and_decide_lt_gt_false
  · decide

/-! ### Claim C8 -/

/-- A well-formed raw candle. -/
def cand_good : RawCandle :=
  { open_ := some 1, close := some 2, min := some 1, max := some 2 }

/-- A raw candle missing its `open` price field. -/
def cand_missing_open : RawCandle :=
  { open_ := none, close := some 2, min := some 1, max := some 2 }

/-- C8 (amended): a candle series in which some candle misses a required
price field makes `_get_price_data`'s comprehension raise; the exception
is caught and an empty DataFrame returned, so `_analyze_market` reports
the generic empty-or-too-short outcome — no distinct "malformed input"
condition fires and no indicator is computed. -/
theorem c8_missing_field_generic (sq : ℚ → ℚ) (raw : List RawCandle)
    (h : ∃ c ∈ raw,
      c.open_ = none ∨ c.close = none ∨ c.min = none ∨ c.max = none) :
    analyze_outcome sq raw = MarketOutcome.priceDataEmptyOrShort := by
  have hall : raw.all
      (fun c => c.open_.isSome && c.close.isSome && c.min.isSome && c.max.isSome)
      = false := by
    obtain ⟨c, hc, hmiss⟩ := h
    rw [List.all_eq_false]
    refine ⟨c, hc, ?_⟩
    rcases hmiss with h1 | h1 | h1 | h1 <;> simp [h1]
  have hpd : get_price_data raw = [] := by
    unfold get_price_data
    rw [hall]
    simp
  unfold analyze_outcome
  rw [hpd]
  simp

/-- C8 witness: the amended behavior at a concrete 3-candle series whose
middle candle misses `open`. -/
theorem c8_witness :
    (∃ c ∈ [cand_good, cand_missing_open, cand_good],
      c.open_ = none ∨ c.close = none ∨ c.min = none ∨ c.max = none) ∧
    analyze_outcome (fun q => q) [cand_good, cand_missing_open, cand_good]
      = MarketOutcome.priceDataEmptyOrShort :=
  ⟨⟨cand_missing_open,
      List.mem_cons_of_mem _ (List.mem_cons_self _ _), Or.inl rfl⟩,
   c8_missing_field_generic (fun q => q) _
     ⟨cand_missing_open,
      List.mem_cons_of_mem _ (List.mem_cons_self _ _), Or.inl rfl⟩⟩

/-- C8 counterexample: on that series the analysis lands in the generic
empty-or-too-short branch, which is a different condition from the
missing-columns ("malformed input") branch the claim requires. -/
theorem c8_cex :
    analyze_outcome (fun q => q) [cand_good, cand_missing_open, cand_good]
        = MarketOutcome.priceDataEmptyOrShort ∧
    MarketOutcome.priceDataEmptyOrShort ≠ MarketOutcome.missingRequiredColumns := by
  constructor
  · decide
  · decide

/-! ### Claim C9 -/

/-- C9: a cycle whose analysis yields no signal (empty and too-short
candle data included) places no order and returns the trader state
exactly unchanged — every field of the Stake State
(`amount`, `mm`, `gameWin`, `gameLose`, `TempLose`, `MaxLose`) is
untouched. -/
theorem c9_no_signal_frame (start_bet : ℤ) (max_m : ℕ) (s : TraderState)
    (sq : ℚ → ℚ) (raw : List RawCandle) (b : Bool) (w : ℚ)
    (h : analyze_market sq raw = none) :
    create_order start_bet max_m s (analyze_market sq raw) b w = (s, false) := by
  rw [h]
  rfl

/-- C9 witness: the empty candle series yields no signal, and the cycle
from a mid-recovery state leaves it unchanged with no order placed. -/
theorem c9_witness :
    analyze_market (fun q => q) [] = none ∧
    create_order 10 3
      { amount := 35, mm := 2, direction := Dir.put, TempLose := -43/2,
        MaxLose := -30, gameWin := 1, gameLose := 2 }
      (analyze_market (fun q => q) []) true (-10)
      = ({ amount := 35, mm := 2, direction := Dir.put, TempLose := -43/2,
           MaxLose := -30, gameWin := 1, gameLose := 2 }, false) :=
  ⟨rfl, c9_no_signal_frame 10 3 _ (fun q => q) [] true (-10) rfl⟩
